import Mathlib

/-!
Verification development for the pitwall triage engine (`src/index.js`).

The JavaScript source is shallowly embedded: JSON-like runtime values become
the inductive `JsVal` (numbers restricted to integers, which is what the
tracker's SLA payloads carry), timestamps and hour quantities become `ℚ`
(milliseconds since epoch / fractional hours), and the ambient clock
`Date.now()` becomes an explicit `now : ℚ` parameter.  Fallible external
writes become `Except String` values supplied through an `Effects`
environment, so the executor's catch structure is explicit state passing.
-/

/-! ## JavaScript value model -/

mutual
/-- JSON-ish runtime value.  `num` is restricted to integers (SLA payloads
are JSON and the engine never does fractional-number string formatting on
them); there is no separate `undefined`: both `null` and `undefined` are
falsy, are not `=== true`, and yield `undefined`/`null` on property access,
so one constructor models both.  Arrays and objects carry their own list
types so every function below is structurally recursive. -/
inductive JsVal where
  | null
  | bool (b : Bool)
  | num (n : Int)
  | str (s : String)
  | arr (xs : JsList)
  | obj (kvs : JsKvs)

/-- Element list of a JSON array. -/
inductive JsList where
  | nil
  | cons (v : JsVal) (tl : JsList)

/-- Key/value bindings of a JSON object, in insertion order. -/
inductive JsKvs where
  | nil
  | cons (k : String) (v : JsVal) (tl : JsKvs)
end

/-- Build a `JsList` from a Lean list (for writing concrete payloads). -/
def JsList.ofL : List JsVal → JsList
  | [] => .nil
  | v :: vs => .cons v (JsList.ofL vs)

/-- Build a `JsKvs` from a Lean association list. -/
def JsKvs.ofL : List (String × JsVal) → JsKvs
  | [] => .nil
  | (k, v) :: kvs => .cons k v (JsKvs.ofL kvs)

/-- The elements of a `JsList` as a Lean list. -/
def JsList.toL : JsList → List JsVal
  | .nil => []
  | .cons v tl => v :: tl.toL

/-- The values of a `JsKvs` in insertion order (`Object.keys` order). -/
def JsKvs.valuesL : JsKvs → List JsVal
  | .nil => []
  | .cons _ v tl => v :: tl.valuesL

/-- First binding for a key, if any. -/
def JsKvs.findKey : JsKvs → String → Option JsVal
  | .nil, _ => none
  | .cons k v tl, key => if k = key then some v else tl.findKey key

/-- JavaScript truthiness (`if (v)`). -/
def jsTruthy : JsVal → Bool
  | .null => false
  | .bool b => b
  | .num n => n != 0
  | .str s => s != ""
  | .arr _ => true
  | .obj _ => true

/-- Optional-chained property access `v?.k`: first binding in an object,
`null` (≈ `undefined`) everywhere else. -/
def jsGet (v : JsVal) (k : String) : JsVal :=
  match v with
  | .obj kvs =>
    match kvs.findKey k with
    | some w => w
    | none => .null
  | _ => .null

/-- `a || b`. -/
def jsOr (a b : JsVal) : JsVal := if jsTruthy a then a else b

/-- `v === true`. -/
def jsIsTrue : JsVal → Bool
  | .bool b => b
  | _ => false

mutual
/-- JavaScript `String(v)` for the shapes a JSON payload can carry.
Arrays stringify their elements joined by commas, with null elements
becoming empty strings; objects give `[object Object]`. -/
def jsToString : JsVal → String
  | .null => "null"
  | .bool true => "true"
  | .bool false => "false"
  | .num n => toString n
  | .str s => s
  | .arr xs => String.intercalate "," (jsToStringList xs)
  | .obj _ => "[object Object]"

def jsToStringList : JsList → List String
  | .nil => []
  | .cons JsVal.null vs => "" :: jsToStringList vs
  | .cons v vs => jsToString v :: jsToStringList vs
end

/-! ## String helpers (ASCII fragment of the JS string methods used) -/

/-- ASCII lower-casing, the fragment of `String.prototype.toLowerCase`
exercised by the engine's markers and SLA text. -/
def lowerStr (s : String) : String := String.mk (s.data.map Char.toLower)

/-- Whitespace as matched by `\s` / trimmed by `trim` (ASCII fragment). -/
def isWsChar (c : Char) : Bool := c = ' ' || c = '\t' || c = '\n' || c = '\r'

/-- `String.prototype.trim` (ASCII whitespace fragment). -/
def trimStr (s : String) : String :=
  String.mk (((s.data.dropWhile isWsChar).reverse.dropWhile isWsChar).reverse)

/-- Does `s` start with `pat` (character lists)? -/
def startsWithChars : List Char → List Char → Bool
  | _, [] => true
  | [], _ :: _ => false
  | c :: cs, d :: ds => c = d && startsWithChars cs ds

/-- Substring search on character lists (semantics of `String.prototype.includes`). -/
def containsChars : List Char → List Char → Bool
  | [], pat => pat.isEmpty
  | c :: cs, pat => startsWithChars (c :: cs) pat || containsChars cs pat

/-- `s.includes(pat)`. -/
def containsStr (s pat : String) : Bool := containsChars s.data pat.data

/-- Decimal digit test. -/
def isDigitCh (c : Char) : Bool := '0' ≤ c && c ≤ '9'

/-- Numeric value of a digit list (`parseInt(ds, 10)` on a pure digit run). -/
def digitsToNat (ds : List Char) : Nat :=
  ds.foldl (fun acc c => 10 * acc + (c.toNat - '0'.toNat)) 0

/-- Matcher for the regex `/(\d+)\s*u/` with `u` a fixed letter: returns the
captured digit run's value at the first position where a maximal digit run,
optionally followed by whitespace, is followed by `u`.  (Backtracking inside
a digit run can never succeed — the character after a shortened run is a
digit, which `\s*u` rejects — so advancing the start position one character
at a time is exactly the JS engine's behaviour.) -/
def findNumBefore (u : Char) : List Char → Option Nat
  | [] => none
  | c :: rest =>
    if isDigitCh c then
      let ds := (c :: rest).takeWhile isDigitCh
      let after := ((c :: rest).dropWhile isDigitCh).dropWhile isWsChar
      match after with
      | d :: _ =>
        if d = u then some (digitsToNat ds) else findNumBefore u rest
      | [] => findNumBefore u rest
    else findNumBefore u rest

/-! ## Config constants (`src/index.js` lines 11–30) -/

def BLOCKED_STATUS_NAME : String := "Waiting for support"
def STALE_MEDIUM_HOURS : ℚ := 24
def STALE_HIGH_HOURS : ℚ := 72
def SLA_HIGH_HOURS : ℚ := 2
def SLA_MEDIUM_HOURS : ℚ := 8
def SKIP_REQUEST_UPDATE_WITHIN_HOURS : ℚ := 6
def SKIP_PLAYBOOK_NOTE_WITHIN_HOURS : ℚ := 12
def PITWALL_MARK : String := "[PITWALL]"
def LABEL_ESCALATED : String := "pitwall-escalated"
def MARK_REQUEST_UPDATE : String := PITWALL_MARK ++ " Request update"
def MARK_PLAYBOOK_NOTE : String := PITWALL_MARK ++ " Playbook note"
def MARK_ESCALATION : String := PITWALL_MARK ++ " Escalation"

/-! ## Time helpers (`hoursSince`, `hoursSinceDate`); `Date.now()` is the
explicit parameter `now`, timestamps are milliseconds since epoch. -/

def hoursSince (now t : ℚ) : ℚ := max 0 ((now - t) / (1000 * 60 * 60))

def hoursSinceDate (now t : ℚ) : ℚ := max 0 ((now - t) / (1000 * 60 * 60))

/-! ## SLA remaining-time parsing (`parseSlaRemainingToHours`, lines 80–97) -/

/-- `parseSlaRemainingToHours(text)`: falsy input yields `null`; the
lowercased, trimmed text is checked for breach words first, then for the
`/(\d+)\s*d/`, `/(\d+)\s*h/`, `/(\d+)\s*m/` patterns, summed as
`days*24 + hours + mins/60`; `null` when no pattern matches. -/
def parseSlaRemainingToHours (text : JsVal) : Option ℚ :=
  if !jsTruthy text then none
  else
    let t := trimStr (lowerStr (jsToString text))
    if containsStr t "breach" || containsStr t "breached" || containsStr t "overdue" then
      some 0
    else
      let dayMatch := findNumBefore 'd' t.data
      let hourMatch := findNumBefore 'h' t.data
      let minMatch := findNumBefore 'm' t.data
      if dayMatch.isNone && hourMatch.isNone && minMatch.isNone then none
      else
        some ((dayMatch.getD 0 : ℚ) * 24 + (hourMatch.getD 0 : ℚ) + (minMatch.getD 0 : ℚ) / 60)

/-! ## SLA extraction (`extractFirstResponseSlaRemainingHours`, lines 99–131) -/

/-- `entry?.name || entry?.goalName || entry?.metricName || ''`. -/
def slaEntryName (entry : JsVal) : JsVal :=
  jsOr (jsGet entry "name") (jsOr (jsGet entry "goalName") (jsOr (jsGet entry "metricName") (.str "")))

/-- The remaining-time fallback chain (lines 115–122). -/
def slaRemainingText (entry : JsVal) : JsVal :=
  jsOr (jsGet (jsGet (jsGet entry "ongoingCycle") "remainingTime") "friendly")
    (jsOr (jsGet (jsGet (jsGet entry "ongoingCycle") "remainingTime") "display")
      (jsOr (jsGet (jsGet entry "ongoingCycle") "remainingTime")
        (jsOr (jsGet (jsGet entry "remainingTime") "friendly")
          (jsOr (jsGet (jsGet entry "remainingTime") "display")
            (jsOr (jsGet entry "remainingTime") .null)))))

/-- `entry?.ongoingCycle?.breached === true || entry?.breached === true`. -/
def slaBreachedFlag (entry : JsVal) : Bool :=
  jsIsTrue (jsGet (jsGet entry "ongoingCycle") "breached") || jsIsTrue (jsGet entry "breached")

/-- Name filter: `String(name).toLowerCase().includes('first response')`. -/
def slaNameMatches (entry : JsVal) : Bool :=
  containsStr (lowerStr (jsToString (slaEntryName entry))) "first response"

/-- The `for (const entry of candidates)` loop body (lines 111–128). -/
def slaScanEntries : List JsVal → Option ℚ
  | [] => none
  | entry :: rest =>
    if !slaNameMatches entry then slaScanEntries rest
    else
      match parseSlaRemainingToHours (slaRemainingText entry) with
      | some h => some h
      | none =>
        if slaBreachedFlag entry then some 0
        else slaScanEntries rest

/-- The candidate list: array spreads its elements, any other object spreads
its values (`Object.keys` in insertion order); primitives contribute none. -/
def slaCandidates : JsVal → List JsVal
  | .arr xs => xs.toL
  | .obj kvs => kvs.valuesL
  | _ => []

/-- `extractFirstResponseSlaRemainingHours(fields)` restricted to its only
input, `fields?.sla`. -/
def extractFirstResponseSlaRemainingHours (sla : JsVal) : Option ℚ :=
  if !jsTruthy sla then none
  else slaScanEntries (slaCandidates sla)

example : parseSlaRemainingToHours (.str "2h 30m") = some (5/2) := by
  have h1 : jsTruthy (.str "2h 30m") = true := by decide
  have h2 : trimStr (lowerStr (jsToString (.str "2h 30m"))) = "2h 30m" := by decide
  have h3 : containsStr "2h 30m" "breach" = false := by decide
  have h4 : containsStr "2h 30m" "overdue" = false := by decide
  have h4b : containsStr "2h 30m" "breached" = false := by decide
  have h5 : findNumBefore 'd' "2h 30m".data = none := by decide
  have h6 : findNumBefore 'h' "2h 30m".data = some 2 := by decide
  have h7 : findNumBefore 'm' "2h 30m".data = some 30 := by decide
  simp [parseSlaRemainingToHours, h1, h2, h3, h4, h4b, h5, h6, h7]
  norm_num

example : parseSlaRemainingToHours (.str "Breached") = some 0 := by decide
example : parseSlaRemainingToHours (.str "soon") = none := by decide
example : parseSlaRemainingToHours (.num 7200000) = none := by decide

/-! ## Issue fields (the projection `computeRiskAndReasons` reads) -/

/-- The slice of an issue snapshot the engine reads.  `statusName` is
`fields?.status?.name` (`none` = absent); `updated` is the last-updated
timestamp in epoch milliseconds (`none` = absent/falsy/invalid — an invalid
date gives `NaN` hours in JS, which fails every threshold comparison just
like `null` does); `assignee` is `none` when unassigned, `some dn` when
assigned with optional `displayName`; `sla` is the raw payload. -/
structure Fields where
  statusName : Option String
  updated : Option ℚ
  summary : Option String
  assignee : Option (Option String)
  labels : List String
  sla : JsVal

/-- Risk tier. -/
inductive Risk where
  | NORMAL
  | MEDIUM
  | HIGH
deriving DecidableEq, Repr

/-- `rankRisk` (lines 133–137): HIGH sorts first. -/
def rankRisk : Risk → Nat
  | .HIGH => 0
  | .MEDIUM => 1
  | .NORMAL => 2

/-- Reasons accumulation (lines 274–288), a pure function of the signals. -/
def computeReasons (isDemoHigh isBlocked isUnassigned : Bool)
    (staleHours firstResponseRemainingHours : Option ℚ) : List String :=
  (if isDemoHigh then ["Demo override"] else []) ++
  (if isBlocked then ["Waiting for support"] else []) ++
  (if isUnassigned then ["Unassigned"] else []) ++
  (match staleHours with
   | none => []
   | some s =>
     if STALE_HIGH_HOURS ≤ s then ["Stale 72h+"]
     else if STALE_MEDIUM_HOURS ≤ s then ["Stale 24h+"]
     else []) ++
  (match firstResponseRemainingHours with
   | none => []
   | some r =>
     if r ≤ SLA_HIGH_HOURS then ["SLA ≤ 2h"]
     else if r ≤ SLA_MEDIUM_HOURS then ["SLA ≤ 8h"]
     else [])

/-- Baseline inside the blocked branch (lines 294–297): override marker,
then the stale chain whose both fall-through arms give MEDIUM. -/
def staleBase (isDemoHigh : Bool) (staleHours : Option ℚ) : Risk :=
  if isDemoHigh then .HIGH
  else match staleHours with
    | some s =>
      if STALE_HIGH_HOURS ≤ s then .HIGH
      else if STALE_MEDIUM_HOURS ≤ s then .MEDIUM
      else .MEDIUM
    | none => .MEDIUM

/-- Owner escalation (line 300): unassigned bumps MEDIUM to HIGH. -/
def unassignedBump (isUnassigned : Bool) (r : Risk) : Risk :=
  if isUnassigned && r = .MEDIUM then .HIGH else r

/-- SLA escalation (lines 303–306). -/
def slaEscalate (firstResponseRemainingHours : Option ℚ) (r : Risk) : Risk :=
  match firstResponseRemainingHours with
  | some x =>
    if x ≤ SLA_HIGH_HOURS then .HIGH
    else if x ≤ SLA_MEDIUM_HOURS && r = .NORMAL then .MEDIUM
    else r
  | none => r

/-- The risk ladder (lines 291–307), a pure function of the signals:
outside the blocked status the tier is left at NORMAL; inside it the
baseline comes from the override marker / staleness, then the
unassigned bump, then the SLA escalation. -/
def computeRisk (isDemoHigh isBlocked isUnassigned : Bool)
    (staleHours firstResponseRemainingHours : Option ℚ) : Risk :=
  if isBlocked then
    slaEscalate firstResponseRemainingHours
      (unassignedBump isUnassigned (staleBase isDemoHigh staleHours))
  else .NORMAL

/-- Recommended next actions (lines 310–325): the last append fires only
when the list built so far is still empty. -/
def computeRecommended (isDemoHigh isBlocked isUnassigned : Bool)
    (firstResponseRemainingHours : Option ℚ) : List String :=
  let base :=
    (if isUnassigned then ["Assign to me"] else []) ++
    (if isBlocked then ["Request update", "Post playbook note", "Generate customer update"] else []) ++
    (match firstResponseRemainingHours with
     | some r => if r ≤ SLA_HIGH_HOURS then ["Escalate"] else []
     | none => [])
  base ++ (if !isBlocked && isDemoHigh && base.isEmpty then ["Generate customer update"] else [])

/-- `pitWallCall` (lines 327–331). -/
def computePitWallCall (risk : Risk) (isBlocked : Bool) : String :=
  if risk = .HIGH && isBlocked then "Post playbook note — Blocked — document the plan and next steps."
  else if risk = .HIGH then "Run recommended — HIGH risk — take action now."
  else if risk = .MEDIUM && isBlocked then "Request update — check blockers and ETA."
  else if risk = .MEDIUM then "Quick check — run recommended when ready."
  else ""

/-- Output record of `computeRiskAndReasons`. -/
structure Computed where
  status : String
  staleHours : Option ℚ
  assigneeName : Option String
  firstResponseRemainingHours : Option ℚ
  risk : Risk
  reasons : List String
  recommended : List String
  pitWallCall : String
  nextAction : Option String

/-- `fields?.status?.name || 'Unknown'`. -/
def statusOf (f : Fields) : String :=
  match f.statusName with
  | some s => if s = "" then "Unknown" else s
  | none => "Unknown"

/-- `status === BLOCKED_STATUS_NAME`. -/
def isBlockedOf (f : Fields) : Bool := statusOf f == BLOCKED_STATUS_NAME

/-- `(fields?.summary || '').includes('[DEMO-HIGH]')` — the manual override
marker in the summary. -/
def isDemoHighOf (f : Fields) : Bool := containsStr (f.summary.getD "") "[DEMO-HIGH]"

/-- `!fields?.assignee`. -/
def isUnassignedOf (f : Fields) : Bool := f.assignee.isNone

/-- `updated ? hoursSince(updated) : null`. -/
def staleHoursOf (now : ℚ) (f : Fields) : Option ℚ := f.updated.map (hoursSince now)

/-- `fields?.assignee?.displayName || null`. -/
def assigneeNameOf (f : Fields) : Option String :=
  match f.assignee with
  | some (some dn) => if dn = "" then none else some dn
  | _ => none

/-- `computeRiskAndReasons(fields)` (lines 260–347), with `Date.now()`
passed as `now`. -/
def computeRiskAndReasons (now : ℚ) (f : Fields) : Computed :=
  let isDemoHigh := isDemoHighOf f
  let isBlocked := isBlockedOf f
  let isUnassigned := isUnassignedOf f
  let staleHours := staleHoursOf now f
  let firstResponseRemainingHours := extractFirstResponseSlaRemainingHours f.sla
  let risk := computeRisk isDemoHigh isBlocked isUnassigned staleHours firstResponseRemainingHours
  let recommended := computeRecommended isDemoHigh isBlocked isUnassigned firstResponseRemainingHours
  { status := statusOf f
    staleHours := staleHours
    assigneeName := assigneeNameOf f
    firstResponseRemainingHours := firstResponseRemainingHours
    risk := risk
    reasons := computeReasons isDemoHigh isBlocked isUnassigned staleHours firstResponseRemainingHours
    recommended := recommended
    pitWallCall := computePitWallCall risk isBlocked
    -- `recommended.length ? recommended[0] : null`
    nextAction := recommended.head? }

/-! ## Comments, ADF text extraction, cooldowns (lines 48–76, 178–210) -/

/-- An inline ADF node; only string-typed `text` fields contribute. -/
structure AdfInline where
  text : Option String

/-- An ADF paragraph-like node. -/
structure AdfPara where
  content : List AdfInline

/-- An ADF document. -/
structure Adf where
  content : List AdfPara

/-- `adfToText` (lines 61–76): concatenate text bits, a newline per
paragraph, trimmed. -/
def adfToText (d : Adf) : String :=
  trimStr (String.join (d.content.map (fun p => String.join (p.content.filterMap (fun b => b.text)) ++ "\n")))

/-- One comment of the fetched comment page: its rich-text body and its
creation timestamp (epoch milliseconds). -/
structure CommentV where
  body : Adf
  created : ℚ

/-- `hasRecentMarkedComment` (lines 178–188). -/
def hasRecentMarkedComment (now : ℚ) (comments : List CommentV) (marker : String) (withinHours : ℚ) : Bool :=
  comments.any (fun c =>
    containsStr (adfToText c.body) marker && decide (hoursSinceDate now c.created ≤ withinHours))

/-- The loop state of `lastMarkedCommentAgeHours` (lines 191–202):
`best` is replaced only when a matching comment is strictly younger. -/
def lastMarkedAux (now : ℚ) (marker : String) : List CommentV → Option ℚ → Option ℚ
  | [], best => best
  | c :: rest, best =>
    if containsStr (adfToText c.body) marker then
      let age := hoursSinceDate now c.created
      match best with
      | none => lastMarkedAux now marker rest (some age)
      | some b => if age < b then lastMarkedAux now marker rest (some age) else lastMarkedAux now marker rest (some b)
    else lastMarkedAux now marker rest best

/-- `lastMarkedCommentAgeHours(comments, marker)`: age in hours of the most
recent comment containing the marker, `none` if never posted. -/
def lastMarkedCommentAgeHours (now : ℚ) (comments : List CommentV) (marker : String) : Option ℚ :=
  lastMarkedAux now marker comments none

/-- Cooldown state record (line 204–210). -/
structure Cooldown where
  posted : Bool
  ageHours : Option ℚ
  windowHours : ℚ
  remainingHours : ℚ
deriving DecidableEq

/-- `computeCooldown(markerAgeHours, windowHours)`. -/
def computeCooldown (markerAgeHours : Option ℚ) (windowHours : ℚ) : Cooldown :=
  match markerAgeHours with
  | none => { posted := false, ageHours := none, windowHours := windowHours, remainingHours := 0 }
  | some a => { posted := true, ageHours := some a, windowHours := windowHours, remainingHours := max 0 (windowHours - a) }

/-! ## Single-issue executor (`runRecommended`, lines 619–736)

External writes (assign, the two comment posts, the escalation) are
fallible calls; their outcomes are supplied as `Except String` values in
an `Effects` environment.  The `runStep` helper's try/catch is the
explicit `runStepE` below: a thrown error becomes a failed step, so no
step result can be lost and no exception can escape the fold. -/

inductive StepStatus where
  | done
  | skipped
  | failed
deriving DecidableEq, Repr

/-- A per-step outcome record. -/
structure Step where
  key : String
  label : String
  status : StepStatus
  message : String
deriving DecidableEq, Repr

/-- What a step body returns when it does not throw (`{ skipped?, message? }`). -/
structure StepOut where
  skipped : Bool
  message : String

/-- Outcomes of the external writes a single-issue run can attempt. -/
structure Effects where
  assignRes : Except String Unit
  requestRes : Except String Unit
  noteRes : Except String Unit
  escalateRes : Except String Unit

/-- The `runStep` helper (lines 635–643): catch boundary of one step. -/
def runStepE (key label issueKey : String) (r : Except String StepOut) : Step :=
  match r with
  | .error e => { key := key, label := label, status := .failed, message := e }
  | .ok out =>
    if out.skipped then
      { key := key, label := label, status := .skipped
        message := if out.message = "" then "Skipped" else out.message }
    else
      { key := key, label := label, status := .done
        message := if out.message = "" then label ++ " complete for " ++ issueKey else out.message }

/-- Steps contributed by one action of the plan (the `if (action === …)`
chain in the `for (const action of rec)` loop, lines 645–719).  Exactly one
branch fires per known action string. -/
def stepsForAction (now : ℚ) (issueKey : String) (f : Fields) (comments : List CommentV)
    (eff : Effects) (action : String) : List Step :=
  (if action = "Assign to me" then
    if f.assignee.isSome then
      [{ key := "assign", label := "Assign to me", status := .skipped, message := "Skipped — already assigned" }]
    else
      [runStepE "assign" "Assign to me" issueKey
        (eff.assignRes.map (fun _ => { skipped := false, message := "Assign to me complete for " ++ issueKey }))]
   else []) ++
  (if action = "Request update" then
    if hasRecentMarkedComment now comments MARK_REQUEST_UPDATE SKIP_REQUEST_UPDATE_WITHIN_HOURS then
      [{ key := "req", label := "Request update", status := .skipped, message := "Skipped — requested within 6h" }]
    else
      [runStepE "req" "Request update" issueKey
        (eff.requestRes.map (fun _ => { skipped := false, message := "Request update posted for " ++ issueKey }))]
   else []) ++
  (if action = "Post playbook note" then
    if hasRecentMarkedComment now comments MARK_PLAYBOOK_NOTE SKIP_PLAYBOOK_NOTE_WITHIN_HOURS then
      [{ key := "note", label := "Post playbook note", status := .skipped, message := "Skipped — posted within 12h" }]
    else
      [runStepE "note" "Post playbook note" issueKey
        (eff.noteRes.map (fun _ => { skipped := false, message := "Playbook note posted for " ++ issueKey }))]
   else []) ++
  (if action = "Generate customer update" then
    [{ key := "draft", label := "Generate customer update", status := .done, message := "Draft ready for " ++ issueKey }]
   else []) ++
  (if action = "Escalate" then
    [runStepE "esc" "Escalate" issueKey
      (if f.labels.contains LABEL_ESCALATED then
        Except.ok { skipped := true, message := "Skipped — already escalated" }
       else
        eff.escalateRes.map (fun _ => { skipped := false, message := "Escalate complete for " ++ issueKey }))]
   else [])

/-- The executor loop over the recommended plan. -/
def runSteps (now : ℚ) (issueKey : String) (f : Fields) (comments : List CommentV)
    (eff : Effects) : List String → List Step
  | [] => []
  | a :: rest => stepsForAction now issueKey f comments eff a ++ runSteps now issueKey f comments eff rest

/-- `buildCustomerDraft` (lines 247–253). -/
def buildCustomerDraft (issueKey summary statusName : String) : String :=
  "Update on \"" ++ summary ++ "\" (" ++ issueKey ++ ")\n" ++
  "Current status: " ++ statusName ++ "\n" ++
  "What we're doing now: We are assigning an owner and beginning investigation immediately.\n" ++
  "Next update: within the next business day (or sooner if we make progress)\n" ++
  "Thanks for your patience — we'll keep you posted."

/-- What `runRecommended` returns on the non-rejected path. -/
structure RunResult where
  ok : Bool
  issueKey : String
  steps : List Step
  draft : String
  outcomeRisk : Risk
  outcomeReasons : List String
  outcomeRecommended : List String
  outcomePitWallCall : String
  outcomeNext : Option String
deriving DecidableEq

/-- `runRecommended` (lines 619–736) after the context checks and the two
fetches: computes the assessment once, walks the plan, always builds the
customer draft, and returns `ok: true`. -/
def runRecommended (now : ℚ) (issueKey : String) (f : Fields) (comments : List CommentV)
    (eff : Effects) : RunResult :=
  let computed := computeRiskAndReasons now f
  let steps := runSteps now issueKey f comments eff computed.recommended
  let summary := f.summary.getD ""
  let draft := buildCustomerDraft issueKey (if summary = "" then issueKey else summary) computed.status
  { ok := true
    issueKey := issueKey
    steps := steps
    draft := draft
    outcomeRisk := computed.risk
    outcomeReasons := computed.reasons
    outcomeRecommended := computed.recommended
    outcomePitWallCall := computed.pitWallCall
    outcomeNext := computed.nextAction }

/-! ## Bulk orchestrator (`runBulkRecommended`, lines 745–898) -/

/-- One search hit plus the per-issue external world: `listFields` is the
projection from the search page (used only for scope filtering), `fetch`
is the outcome of the per-issue `getIssue`/`getComments` pair (the only
calls inside the per-issue `try` that are not individually caught), and
`eff` the outcomes of that issue's writes. -/
structure BulkInput where
  key : String
  listFields : Fields
  fetch : Except String (Fields × List CommentV)
  eff : Effects

/-- Scope selection (line 764): `"VISIBLE"` takes everything, any other
scope keeps only HIGH-risk issues. -/
def bulkTargets (now : ℚ) (scope : String) (inputs : List BulkInput) : List BulkInput :=
  if scope = "VISIBLE" then inputs
  else inputs.filter (fun t => (computeRiskAndReasons now t.listFields).risk == Risk.HIGH)

/-- Per-issue result (`results` entries, lines 879 and 882): a crashed
issue records only the error, a completed one its steps and draft. -/
structure IssueResult where
  issueKey : String
  ok : Bool
  steps : List Step
  draft : Option String
  error : Option String
deriving DecidableEq

/-- The per-issue step sequence of the bulk runner (lines 782–877): the
five `rec.includes(…)` blocks in fixed order, with the per-block failed and
skipped step counters; the draft exists only when the plan asks for it. -/
def bulkIssueSteps (now : ℚ) (issueKey : String) (f : Fields) (comments : List CommentV)
    (eff : Effects) : List Step × Option String × Nat × Nat :=
  let computed := computeRiskAndReasons now f
  let plan := computed.recommended
  let b1 : List Step × Nat × Nat :=
    if plan.contains "Assign to me" then
      if f.assignee.isSome then
        ([{ key := "assign", label := "Assign to me", status := .skipped, message := "Skipped — already assigned" }], 0, 1)
      else match eff.assignRes with
        | .ok _ => ([{ key := "assign", label := "Assign to me", status := .done, message := "Assign to me complete for " ++ issueKey }], 0, 0)
        | .error e => ([{ key := "assign", label := "Assign to me", status := .failed, message := e }], 1, 0)
    else ([], 0, 0)
  let b2 : List Step × Nat × Nat :=
    if plan.contains "Request update" then
      if hasRecentMarkedComment now comments MARK_REQUEST_UPDATE SKIP_REQUEST_UPDATE_WITHIN_HOURS then
        ([{ key := "req", label := "Request update", status := .skipped, message := "Skipped — requested within 6h" }], 0, 1)
      else match eff.requestRes with
        | .ok _ => ([{ key := "req", label := "Request update", status := .done, message := "Request update posted for " ++ issueKey }], 0, 0)
        | .error e => ([{ key := "req", label := "Request update", status := .failed, message := e }], 1, 0)
    else ([], 0, 0)
  let b3 : List Step × Nat × Nat :=
    if plan.contains "Post playbook note" then
      if hasRecentMarkedComment now comments MARK_PLAYBOOK_NOTE SKIP_PLAYBOOK_NOTE_WITHIN_HOURS then
        ([{ key := "note", label := "Post playbook note", status := .skipped, message := "Skipped — posted within 12h" }], 0, 1)
      else match eff.noteRes with
        | .ok _ => ([{ key := "note", label := "Post playbook note", status := .done, message := "Playbook note posted for " ++ issueKey }], 0, 0)
        | .error e => ([{ key := "note", label := "Post playbook note", status := .failed, message := e }], 1, 0)
    else ([], 0, 0)
  let summary := f.summary.getD ""
  let draft : Option String :=
    if plan.contains "Generate customer update" then
      some (buildCustomerDraft issueKey (if summary = "" then issueKey else summary) computed.status)
    else none
  let b4 : List Step :=
    if plan.contains "Generate customer update" then
      [{ key := "draft", label := "Generate customer update", status := .done, message := "Draft ready for " ++ issueKey }]
    else []
  let b5 : List Step × Nat × Nat :=
    if plan.contains "Escalate" then
      if f.labels.contains LABEL_ESCALATED then
        ([{ key := "esc", label := "Escalate", status := .skipped, message := "Skipped — already escalated" }], 0, 1)
      else match eff.escalateRes with
        | .ok _ => ([{ key := "esc", label := "Escalate", status := .done, message := "Escalate complete for " ++ issueKey }], 0, 0)
        | .error e => ([{ key := "esc", label := "Escalate", status := .failed, message := e }], 1, 0)
    else ([], 0, 0)
  (b1.1 ++ b2.1 ++ b3.1 ++ b4 ++ b5.1, draft,
   b1.2.1 + b2.2.1 + b3.2.1 + b5.2.1,
   b1.2.2 + b2.2.2 + b3.2.2 + b5.2.2)

/-- The per-issue `try`/`catch` boundary of the bulk loop (lines 772–884):
a fetch failure is caught and recorded as that issue's failure; a completed
issue contributes its steps, draft and counter increments. -/
def processIssue (now : ℚ) (t : BulkInput) : IssueResult × Nat × Nat × Nat × Nat :=
  match t.fetch with
  | .error e => ({ issueKey := t.key, ok := false, steps := [], draft := none, error := some e }, 0, 1, 0, 0)
  | .ok (f, comments) =>
    let r := bulkIssueSteps now t.key f comments t.eff
    ({ issueKey := t.key, ok := true, steps := r.1, draft := r.2.1, error := none }, 1, 0, r.2.2.1, r.2.2.2)

/-- The bulk loop with its four accumulators. -/
def bulkLoop (now : ℚ) : List BulkInput → List IssueResult × Nat × Nat × Nat × Nat
  | [] => ([], 0, 0, 0, 0)
  | t :: rest =>
    let h := processIssue now t
    let r := bulkLoop now rest
    (h.1 :: r.1, h.2.1 + r.2.1, h.2.2.1 + r.2.2.1, h.2.2.2.1 + r.2.2.2.1, h.2.2.2.2 + r.2.2.2.2)

/-- What `runBulkRecommended` returns on the non-rejected path. -/
structure BulkResult where
  ok : Bool
  scope : String
  total : Nat
  okCount : Nat
  failedCount : Nat
  failedSteps : Nat
  skippedSteps : Nat
  results : List IssueResult
deriving DecidableEq

/-- `runBulkRecommended` after the context checks and the search call:
filter the scope, run every target behind its own catch boundary,
aggregate the counters. -/
def runBulkRecommended (now : ℚ) (scope : String) (inputs : List BulkInput) : BulkResult :=
  let targets := bulkTargets now scope inputs
  let acc := bulkLoop now targets
  { ok := true
    scope := scope
    total := targets.length
    okCount := acc.2.1
    failedCount := acc.2.2.1
    failedSteps := acc.2.2.2.1
    skippedSteps := acc.2.2.2.2
    results := acc.1 }

/-! ## Helper lemmas -/

/-- The five action strings the planner can emit. -/
def ACTION_VOCAB : List String :=
  ["Assign to me", "Request update", "Post playbook note", "Generate customer update", "Escalate"]

theorem computeRecommended_mem_vocab (d b u : Bool) (r : Option ℚ) :
    ∀ a ∈ computeRecommended d b u r, a ∈ ACTION_VOCAB := by
  intro a ha
  cases r <;> cases d <;> cases b <;> cases u <;>
    simp [computeRecommended, ACTION_VOCAB] at ha ⊢ <;> tauto

theorem computeRisk_not_blocked (d u : Bool) (s r : Option ℚ) :
    computeRisk d false u s r = .NORMAL := by
  simp [computeRisk]

theorem staleBase_mono (d : Bool) {s₁ s₂ : ℚ} (hs : s₁ ≤ s₂) :
    rankRisk (staleBase d (some s₂)) ≤ rankRisk (staleBase d (some s₁)) := by
  cases d <;> simp only [staleBase] <;> split_ifs <;> simp_all [rankRisk] <;> linarith

theorem unassignedBump_mono (u : Bool) {p q : Risk} (h : rankRisk p ≤ rankRisk q) :
    rankRisk (unassignedBump u p) ≤ rankRisk (unassignedBump u q) := by
  cases p <;> cases q <;> cases u <;> simp_all [unassignedBump, rankRisk]

theorem slaEscalate_mono (ro : Option ℚ) {p q : Risk} (h : rankRisk p ≤ rankRisk q) :
    rankRisk (slaEscalate ro p) ≤ rankRisk (slaEscalate ro q) := by
  cases ro with
  | none => simpa [slaEscalate] using h
  | some x => cases p <;> cases q <;> simp_all [slaEscalate, rankRisk] <;> split_ifs <;> simp_all [rankRisk]

theorem staleBase_ne_NORMAL (d : Bool) (s : Option ℚ) : staleBase d s ≠ .NORMAL := by
  cases d <;> cases s <;> simp [staleBase] <;> split_ifs <;> simp

theorem unassignedBump_ne_NORMAL (u : Bool) {r : Risk} (h : r ≠ .NORMAL) :
    unassignedBump u r ≠ .NORMAL := by
  cases r <;> cases u <;> simp_all [unassignedBump]

theorem slaEscalate_anti {p : Risk} (hp : p ≠ .NORMAL) {x₁ x₂ : ℚ} (hx : x₁ ≤ x₂) :
    rankRisk (slaEscalate (some x₁) p) ≤ rankRisk (slaEscalate (some x₂) p) := by
  cases p <;> simp_all [slaEscalate, rankRisk] <;> split_ifs <;> simp_all [rankRisk] <;> linarith

/-- C6: holding the other signals fixed, a larger `staleHours` never gives a
strictly lower tier, and a larger `firstResponseRemainingHours` (less
urgent) never gives a strictly higher tier; tiers are compared through
`rankRisk` (HIGH = 0 outranks MEDIUM = 1 outranks NORMAL = 2). -/
theorem classifier_monotone (d b u : Bool) (ro so : Option ℚ) (s₁ s₂ x₁ x₂ : ℚ)
    (hs : s₁ ≤ s₂) (hx : x₁ ≤ x₂) :
    rankRisk (computeRisk d b u (some s₂) ro) ≤ rankRisk (computeRisk d b u (some s₁) ro) ∧
    rankRisk (computeRisk d b u so (some x₁)) ≤ rankRisk (computeRisk d b u so (some x₂)) := by
  cases b with
  | false => simp [computeRisk]
  | true =>
    constructor
    · simpa [computeRisk] using slaEscalate_mono ro (unassignedBump_mono u (staleBase_mono d hs))
    · simpa [computeRisk] using
        slaEscalate_anti (unassignedBump_ne_NORMAL u (staleBase_ne_NORMAL d so)) hx

/-- Witness for `classifier_monotone` at concrete signals. -/
theorem classifier_monotone_witness :
    (5 : ℚ) ≤ 80 ∧ (1 : ℚ) ≤ 5 ∧
    (rankRisk (computeRisk false true false (some 80) none) ≤
        rankRisk (computeRisk false true false (some 5) none) ∧
      rankRisk (computeRisk false true false none (some 1)) ≤
        rankRisk (computeRisk false true false none (some 5))) :=
  ⟨by norm_num, by norm_num,
    classifier_monotone false true false none none 5 80 1 5 (by norm_num) (by norm_num)⟩

/-- The reasons vocabulary in emission order. -/
def REASON_ORDER : List String :=
  ["Demo override", "Waiting for support", "Unassigned", "Stale 72h+", "Stale 24h+", "SLA ≤ 2h", "SLA ≤ 8h"]

theorem reasons_nodup (d b u : Bool) (s r : Option ℚ) : (computeReasons d b u s r).Nodup := by
  cases s <;> cases r <;> cases d <;> cases b <;> cases u <;>
    simp only [computeReasons] <;> split_ifs <;> decide

theorem reasons_sublist (d b u : Bool) (s r : Option ℚ) :
    (computeReasons d b u s r).Sublist REASON_ORDER := by
  cases s <;> cases r <;> cases d <;> cases b <;> cases u <;>
    simp only [computeReasons, REASON_ORDER] <;> split_ifs <;> decide

theorem reasons_mem_demo (d b u : Bool) (s r : Option ℚ) :
    "Demo override" ∈ computeReasons d b u s r ↔ d = true := by
  cases s <;> cases r <;> cases d <;> cases b <;> cases u <;>
    simp [computeReasons] <;> split_ifs <;> simp_all

theorem reasons_mem_blocked (d b u : Bool) (s r : Option ℚ) :
    "Waiting for support" ∈ computeReasons d b u s r ↔ b = true := by
  cases s <;> cases r <;> cases d <;> cases b <;> cases u <;>
    simp [computeReasons] <;> split_ifs <;> simp_all

theorem reasons_mem_unassigned (d b u : Bool) (s r : Option ℚ) :
    "Unassigned" ∈ computeReasons d b u s r ↔ u = true := by
  cases s <;> cases r <;> cases d <;> cases b <;> cases u <;>
    simp [computeReasons] <;> split_ifs <;> simp_all

theorem reasons_mem_staleHigh (d b u : Bool) (s r : Option ℚ) :
    "Stale 72h+" ∈ computeReasons d b u s r ↔ ∃ x, s = some x ∧ STALE_HIGH_HOURS ≤ x := by
  cases s <;> cases r <;> cases d <;> cases b <;> cases u <;>
    simp [computeReasons] <;> split_ifs <;> simp_all

theorem reasons_mem_staleMed (d b u : Bool) (s r : Option ℚ) :
    "Stale 24h+" ∈ computeReasons d b u s r ↔
      ∃ x, s = some x ∧ STALE_MEDIUM_HOURS ≤ x ∧ ¬ STALE_HIGH_HOURS ≤ x := by
  cases s <;> cases r <;> cases d <;> cases b <;> cases u <;>
    simp [computeReasons] <;> split_ifs <;> simp_all

theorem reasons_mem_slaHigh (d b u : Bool) (s r : Option ℚ) :
    "SLA ≤ 2h" ∈ computeReasons d b u s r ↔ ∃ x, r = some x ∧ x ≤ SLA_HIGH_HOURS := by
  cases s <;> cases r <;> cases d <;> cases b <;> cases u <;>
    simp [computeReasons] <;> split_ifs <;> simp_all

theorem reasons_mem_slaMed (d b u : Bool) (s r : Option ℚ) :
    "SLA ≤ 8h" ∈ computeReasons d b u s r ↔
      ∃ x, r = some x ∧ x ≤ SLA_MEDIUM_HOURS ∧ ¬ x ≤ SLA_HIGH_HOURS := by
  cases s <;> cases r <;> cases d <;> cases b <;> cases u <;>
    simp [computeReasons] <;> split_ifs <;> simp_all

theorem crr_risk (now : ℚ) (f : Fields) :
    (computeRiskAndReasons now f).risk =
      computeRisk (isDemoHighOf f) (isBlockedOf f) (isUnassignedOf f) (staleHoursOf now f)
        (extractFirstResponseSlaRemainingHours f.sla) := rfl

theorem crr_reasons (now : ℚ) (f : Fields) :
    (computeRiskAndReasons now f).reasons =
      computeReasons (isDemoHighOf f) (isBlockedOf f) (isUnassignedOf f) (staleHoursOf now f)
        (extractFirstResponseSlaRemainingHours f.sla) := rfl

theorem crr_recommended (now : ℚ) (f : Fields) :
    (computeRiskAndReasons now f).recommended =
      computeRecommended (isDemoHighOf f) (isBlockedOf f) (isUnassignedOf f)
        (extractFirstResponseSlaRemainingHours f.sla) := rfl

theorem crr_nextAction (now : ℚ) (f : Fields) :
    (computeRiskAndReasons now f).nextAction = (computeRiskAndReasons now f).recommended.head? := rfl

theorem computeRecommended_blocked_ne_nil (d u : Bool) (r : Option ℚ) :
    computeRecommended d true u r ≠ [] := by
  cases d <;> cases u <;> rcases r with _ | x <;> simp [computeRecommended] <;> split_ifs <;> simp

/-- C7: each triggered reason appears exactly once (membership iff its
condition, plus no duplicates), in the fixed order given by `REASON_ORDER`
(override, blocked, unassigned, stale, SLA), and the high-threshold stale
and SLA variants exclude the medium ones. -/
theorem reasons_exactly_once (d b u : Bool) (s r : Option ℚ) :
    (computeReasons d b u s r).Nodup ∧
    (computeReasons d b u s r).Sublist REASON_ORDER ∧
    ("Demo override" ∈ computeReasons d b u s r ↔ d = true) ∧
    ("Waiting for support" ∈ computeReasons d b u s r ↔ b = true) ∧
    ("Unassigned" ∈ computeReasons d b u s r ↔ u = true) ∧
    ("Stale 72h+" ∈ computeReasons d b u s r ↔ ∃ x, s = some x ∧ STALE_HIGH_HOURS ≤ x) ∧
    ("Stale 24h+" ∈ computeReasons d b u s r ↔
      ∃ x, s = some x ∧ STALE_MEDIUM_HOURS ≤ x ∧ ¬ STALE_HIGH_HOURS ≤ x) ∧
    ("SLA ≤ 2h" ∈ computeReasons d b u s r ↔ ∃ x, r = some x ∧ x ≤ SLA_HIGH_HOURS) ∧
    ("SLA ≤ 8h" ∈ computeReasons d b u s r ↔
      ∃ x, r = some x ∧ x ≤ SLA_MEDIUM_HOURS ∧ ¬ x ≤ SLA_HIGH_HOURS) ∧
    ¬("Stale 72h+" ∈ computeReasons d b u s r ∧ "Stale 24h+" ∈ computeReasons d b u s r) ∧
    ¬("SLA ≤ 2h" ∈ computeReasons d b u s r ∧ "SLA ≤ 8h" ∈ computeReasons d b u s r) := by
  refine ⟨reasons_nodup d b u s r, reasons_sublist d b u s r, reasons_mem_demo d b u s r,
    reasons_mem_blocked d b u s r, reasons_mem_unassigned d b u s r,
    reasons_mem_staleHigh d b u s r, reasons_mem_staleMed d b u s r,
    reasons_mem_slaHigh d b u s r, reasons_mem_slaMed d b u s r, ?_, ?_⟩
  · rintro ⟨h1, h2⟩
    obtain ⟨x, hx, hx72⟩ := (reasons_mem_staleHigh d b u s r).1 h1
    obtain ⟨y, hy, _, hy72⟩ := (reasons_mem_staleMed d b u s r).1 h2
    rw [hx] at hy
    exact hy72 (Option.some.inj hy ▸ hx72)
  · rintro ⟨h1, h2⟩
    obtain ⟨x, hx, hx2⟩ := (reasons_mem_slaHigh d b u s r).1 h1
    obtain ⟨y, hy, _, hy2⟩ := (reasons_mem_slaMed d b u s r).1 h2
    rw [hx] at hy
    exact hy2 (Option.some.inj hy ▸ hx2)

/-- Witness for `reasons_exactly_once`: a blocked, unassigned, 80-hours
stale issue gets each of its three reasons exactly once. -/
theorem reasons_exactly_once_witness :
    (computeReasons false true true (some 80) none).Nodup ∧
    ("Unassigned" ∈ computeReasons false true true (some 80) none ↔ true = true) ∧
    ("Stale 72h+" ∈ computeReasons false true true (some 80) none ↔
      ∃ x, (some (80 : ℚ) : Option ℚ) = some x ∧ STALE_HIGH_HOURS ≤ x) :=
  ⟨(reasons_exactly_once false true true (some 80) none).1,
    (reasons_exactly_once false true true (some 80) none).2.2.2.2.1,
    (reasons_exactly_once false true true (some 80) none).2.2.2.2.2.1⟩

/-- C10 (implicit): `nextAction` is the head of the recommended list and is
null exactly when that list is empty; a MEDIUM or HIGH tier guarantees a
non-empty recommended list. -/
theorem nextAction_spec (now : ℚ) (f : Fields) :
    ((computeRiskAndReasons now f).risk = .MEDIUM ∨ (computeRiskAndReasons now f).risk = .HIGH →
      (computeRiskAndReasons now f).recommended ≠ []) ∧
    (computeRiskAndReasons now f).nextAction = (computeRiskAndReasons now f).recommended.head? ∧
    ((computeRiskAndReasons now f).nextAction = none ↔ (computeRiskAndReasons now f).recommended = []) := by
  refine ⟨?_, crr_nextAction now f, ?_⟩
  · intro h
    cases hb : isBlockedOf f with
    | false =>
      rw [crr_risk, hb, computeRisk_not_blocked] at h
      rcases h with h | h <;> exact absurd h (by simp)
    | true =>
      rw [crr_recommended, hb]
      exact computeRecommended_blocked_ne_nil _ _ _
  · rw [crr_nextAction]
    cases (computeRiskAndReasons now f).recommended <;> simp

/-- A blocked, unassigned issue used to witness `nextAction_spec`. -/
def wfBlocked : Fields :=
  { statusName := some "Waiting for support", updated := none, summary := some "Gearbox overheating"
    assignee := none, labels := [], sla := JsVal.null }

/-- Witness for `nextAction_spec`. -/
theorem nextAction_spec_witness :
    ((computeRiskAndReasons 0 wfBlocked).risk = .MEDIUM ∨ (computeRiskAndReasons 0 wfBlocked).risk = .HIGH) ∧
    (computeRiskAndReasons 0 wfBlocked).recommended ≠ [] ∧
    (computeRiskAndReasons 0 wfBlocked).nextAction = (computeRiskAndReasons 0 wfBlocked).recommended.head? :=
  ⟨Or.inr (by decide), (nextAction_spec 0 wfBlocked).1 (Or.inr (by decide)),
    (nextAction_spec 0 wfBlocked).2.1⟩

/-- A non-blocked, assigned issue whose summary carries the override
marker. -/
def fieldsOverrideOpen : Fields :=
  { statusName := some "Open", updated := none, summary := some "[DEMO-HIGH] Engine misfire"
    assignee := some (some "Dana"), labels := [], sla := JsVal.null }

/-- C1: on a non-blocked issue carrying the `[DEMO-HIGH]` override marker
the classifier leaves the tier at NORMAL — the override is only consulted
inside the blocked branch — even though it still emits the `Demo override`
reason and the override's recommended action. -/
theorem override_not_blocked_stays_NORMAL :
    (computeRiskAndReasons 0 fieldsOverrideOpen).risk = Risk.NORMAL ∧
    (computeRiskAndReasons 0 fieldsOverrideOpen).risk ≠ Risk.HIGH ∧
    "Demo override" ∈ (computeRiskAndReasons 0 fieldsOverrideOpen).reasons ∧
    (computeRiskAndReasons 0 fieldsOverrideOpen).recommended = ["Generate customer update"] := by
  decide

theorem parseSlaRemainingToHours_nonneg (v : JsVal) (x : ℚ)
    (h : parseSlaRemainingToHours v = some x) : 0 ≤ x := by
  simp only [parseSlaRemainingToHours] at h
  split_ifs at h
  · rw [Option.some.injEq] at h
    subst h
    norm_num
  · rw [Option.some.injEq] at h
    subst h
    positivity

theorem slaScanEntries_nonneg : ∀ (entries : List JsVal) (x : ℚ),
    slaScanEntries entries = some x → 0 ≤ x := by
  intro entries
  induction entries with
  | nil => intro x h; simp [slaScanEntries] at h
  | cons e rest ih =>
    intro x h
    simp only [slaScanEntries] at h
    split_ifs at h with hname hflag
    · exact ih x h
    · cases hp : parseSlaRemainingToHours (slaRemainingText e) with
      | some y =>
        rw [hp, Option.some.injEq] at h
        exact h ▸ parseSlaRemainingToHours_nonneg _ y hp
      | none =>
        rw [hp, Option.some.injEq] at h
        subst h
        norm_num
    · cases hp : parseSlaRemainingToHours (slaRemainingText e) with
      | some y =>
        rw [hp, Option.some.injEq] at h
        exact h ▸ parseSlaRemainingToHours_nonneg _ y hp
      | none =>
        rw [hp] at h
        exact ih x h

/-- C9: SLA extraction is total over arbitrary payload shapes and, when it
produces a number, that number is non-negative; unparseable input degrades
to `none`. -/
theorem extract_sla_nonneg (sla : JsVal) (x : ℚ)
    (h : extractFirstResponseSlaRemainingHours sla = some x) : 0 ≤ x := by
  unfold extractFirstResponseSlaRemainingHours at h
  split_ifs at h with h1
  exact slaScanEntries_nonneg _ x h

/-- A payload whose matching entry has only the breached flag. -/
def wslaBreached : JsVal :=
  .arr (JsList.ofL [.obj (JsKvs.ofL [("name", .str "First response time"), ("breached", .bool true)])])

/-- Witness for `extract_sla_nonneg`. -/
theorem extract_sla_nonneg_witness :
    extractFirstResponseSlaRemainingHours wslaBreached = some 0 ∧ (0 : ℚ) ≤ 0 :=
  ⟨by decide, extract_sla_nonneg wslaBreached 0 (by decide)⟩

/-- The ages (in hours) of the comments whose extracted text contains the
marker, in list order. -/
def matchedAges (now : ℚ) (marker : String) (comments : List CommentV) : List ℚ :=
  (comments.filter (fun c => containsStr (adfToText c.body) marker)).map
    (fun c => hoursSinceDate now c.created)

theorem lastMarkedAux_none (now : ℚ) (marker : String) :
    ∀ (l : List CommentV) (b : Option ℚ),
      lastMarkedAux now marker l b = none ↔ b = none ∧ matchedAges now marker l = [] := by
  intro l
  induction l with
  | nil => intro b; simp [lastMarkedAux, matchedAges]
  | cons c rest ih =>
    intro b
    by_cases hc : containsStr (adfToText c.body) marker
    · have hages : matchedAges now marker (c :: rest) =
          hoursSinceDate now c.created :: matchedAges now marker rest := by
        simp [matchedAges, List.filter_cons_of_pos, hc]
      cases b with
      | none =>
        rw [show lastMarkedAux now marker (c :: rest) none =
            lastMarkedAux now marker rest (some (hoursSinceDate now c.created)) by
          simp [lastMarkedAux, hc], hages]
        simp [ih]
      | some bb =>
        rw [show lastMarkedAux now marker (c :: rest) (some bb) =
            (if hoursSinceDate now c.created < bb then
              lastMarkedAux now marker rest (some (hoursSinceDate now c.created))
            else lastMarkedAux now marker rest (some bb)) by
          simp [lastMarkedAux, hc], hages]
        split_ifs <;> simp [ih]
    · have hages : matchedAges now marker (c :: rest) = matchedAges now marker rest := by
        simp [matchedAges, List.filter_cons_of_neg, hc]
      rw [show lastMarkedAux now marker (c :: rest) b = lastMarkedAux now marker rest b by
          simp [lastMarkedAux, hc], hages]
      exact ih b

theorem lastMarkedAux_min (now : ℚ) (marker : String) :
    ∀ (l : List CommentV) (b : Option ℚ) (m : ℚ),
      lastMarkedAux now marker l b = some m →
        (m ∈ matchedAges now marker l ∨ b = some m) ∧
        (∀ x ∈ matchedAges now marker l, m ≤ x) ∧
        (∀ y, b = some y → m ≤ y) := by
  intro l
  induction l with
  | nil =>
    intro b m h
    simp only [lastMarkedAux] at h
    simp [matchedAges, h]
  | cons c rest ih =>
    intro b m h
    by_cases hc : containsStr (adfToText c.body) marker
    · have hages : matchedAges now marker (c :: rest) =
          hoursSinceDate now c.created :: matchedAges now marker rest := by
        simp [matchedAges, List.filter_cons_of_pos, hc]
      cases b with
      | none =>
        rw [show lastMarkedAux now marker (c :: rest) none =
            lastMarkedAux now marker rest (some (hoursSinceDate now c.created)) by
          simp [lastMarkedAux, hc]] at h
        obtain ⟨h1, h2, h3⟩ := ih (some (hoursSinceDate now c.created)) m h
        refine ⟨?_, ?_, ?_⟩
        · rw [hages]
          rcases h1 with h1 | h1
          · exact Or.inl (List.mem_cons_of_mem _ h1)
          · exact Or.inl (Option.some.inj h1 ▸ List.mem_cons_self _ _)
        · rw [hages]
          intro x hx
          rcases List.mem_cons.1 hx with hx | hx
          · exact hx ▸ h3 _ rfl
          · exact h2 x hx
        · intro y hy
          exact absurd hy (by simp)
      | some bb =>
        rw [show lastMarkedAux now marker (c :: rest) (some bb) =
            (if hoursSinceDate now c.created < bb then
              lastMarkedAux now marker rest (some (hoursSinceDate now c.created))
            else lastMarkedAux now marker rest (some bb)) by
          simp [lastMarkedAux, hc]] at h
        by_cases hlt : hoursSinceDate now c.created < bb
        · rw [if_pos hlt] at h
          obtain ⟨h1, h2, h3⟩ := ih (some (hoursSinceDate now c.created)) m h
          have hmage : m ≤ hoursSinceDate now c.created := h3 _ rfl
          refine ⟨?_, ?_, ?_⟩
          · rw [hages]
            rcases h1 with h1 | h1
            · exact Or.inl (List.mem_cons_of_mem _ h1)
            · exact Or.inl (Option.some.inj h1 ▸ List.mem_cons_self _ _)
          · rw [hages]
            intro x hx
            rcases List.mem_cons.1 hx with hx | hx
            · exact hx ▸ hmage
            · exact h2 x hx
          · intro y hy
            exact (Option.some.inj hy) ▸ le_of_lt (lt_of_le_of_lt hmage hlt)
        · rw [if_neg hlt] at h
          obtain ⟨h1, h2, h3⟩ := ih (some bb) m h
          have hmbb : m ≤ bb := h3 _ rfl
          have hble : bb ≤ hoursSinceDate now c.created := le_of_not_lt hlt
          refine ⟨?_, ?_, ?_⟩
          · rcases h1 with h1 | h1
            · exact Or.inl (hages ▸ List.mem_cons_of_mem _ h1)
            · exact Or.inr h1
          · rw [hages]
            intro x hx
            rcases List.mem_cons.1 hx with hx | hx
            · exact hx ▸ le_trans hmbb hble
            · exact h2 x hx
          · intro y hy
            exact (Option.some.inj hy) ▸ hmbb
    · rw [show lastMarkedAux now marker (c :: rest) b = lastMarkedAux now marker rest b by
        simp [lastMarkedAux, hc]] at h
      have hages : matchedAges now marker (c :: rest) = matchedAges now marker rest := by
        simp [matchedAges, List.filter_cons_of_neg, hc]
      rw [hages]
      exact ih b m h

/-- C3: with no marked comment the cooldown is `posted: false,
remainingHours: 0`; otherwise the age that decides is the minimum over all
matching comments (the most recent post) and
`remainingHours = max 0 (window − minAge)` with `posted: true`. -/
theorem cooldown_most_recent (now : ℚ) (comments : List CommentV) (marker : String) (w : ℚ) :
    (matchedAges now marker comments = [] →
      computeCooldown (lastMarkedCommentAgeHours now comments marker) w =
        { posted := false, ageHours := none, windowHours := w, remainingHours := 0 }) ∧
    (∀ m, lastMarkedCommentAgeHours now comments marker = some m →
      m ∈ matchedAges now marker comments ∧
      (∀ x ∈ matchedAges now marker comments, m ≤ x) ∧
      computeCooldown (lastMarkedCommentAgeHours now comments marker) w =
        { posted := true, ageHours := some m, windowHours := w, remainingHours := max 0 (w - m) }) ∧
    (matchedAges now marker comments ≠ [] →
      ∃ m, lastMarkedCommentAgeHours now comments marker = some m) := by
  refine ⟨?_, ?_, ?_⟩
  · intro hemp
    have : lastMarkedCommentAgeHours now comments marker = none :=
      (lastMarkedAux_none now marker comments none).2 ⟨rfl, hemp⟩
    rw [this]
    rfl
  · intro m hm
    obtain ⟨h1, h2, _⟩ := lastMarkedAux_min now marker comments none m hm
    refine ⟨?_, h2, ?_⟩
    · rcases h1 with h1 | h1
      · exact h1
      · exact absurd h1 (by simp)
    · rw [hm]
      rfl
  · intro hne
    cases hl : lastMarkedCommentAgeHours now comments marker with
    | some m => exact ⟨m, rfl⟩
    | none => exact absurd ((lastMarkedAux_none now marker comments none).1 hl).2 hne

/-- Marked comment body used by the cooldown witness. -/
def wBodyMarked : Adf :=
  { content := [ { content := [ { text := some "[PITWALL] Request update" } ] } ] }

/-- Unmarked comment body used by the cooldown witness. -/
def wBodyPlain : Adf :=
  { content := [ { content := [ { text := some "just a human comment" } ] } ] }

/-- Comment history for the cooldown witness: marked comments posted 5 and
7 hours ago (timestamps in milliseconds before `now = 0`), plus an
unmarked one in between. -/
def wComments : List CommentV :=
  [ { body := wBodyMarked, created := -18000000 }
  , { body := wBodyPlain, created := -3600000 }
  , { body := wBodyMarked, created := -25200000 } ]

theorem wComments_ages : matchedAges 0 MARK_REQUEST_UPDATE wComments = [5, 7] := by
  have hm1 : containsStr (adfToText wBodyMarked) MARK_REQUEST_UPDATE = true := by decide
  have hm2 : containsStr (adfToText wBodyPlain) MARK_REQUEST_UPDATE = false := by decide
  simp only [wComments, matchedAges, List.filter_cons, List.filter_nil, hm1, hm2,
    if_true, if_false, List.map_cons, List.map_nil]
  norm_num [hoursSinceDate, max_def]

/-- Witness for `cooldown_most_recent`: marked comments aged 5h and 7h with
a 6h window give `posted` and `remainingHours = 1` — decided by the most
recent (5h) post, not the oldest. -/
theorem cooldown_most_recent_witness :
    matchedAges 0 MARK_REQUEST_UPDATE wComments ≠ [] ∧
    lastMarkedCommentAgeHours 0 wComments MARK_REQUEST_UPDATE = some 5 ∧
    computeCooldown (lastMarkedCommentAgeHours 0 wComments MARK_REQUEST_UPDATE)
        SKIP_REQUEST_UPDATE_WITHIN_HOURS =
      { posted := true, ageHours := some 5, windowHours := SKIP_REQUEST_UPDATE_WITHIN_HOURS,
        remainingHours := 1 } := by
  have hc := cooldown_most_recent 0 wComments MARK_REQUEST_UPDATE SKIP_REQUEST_UPDATE_WITHIN_HOURS
  have hne : matchedAges 0 MARK_REQUEST_UPDATE wComments ≠ [] := by
    rw [wComments_ages]; simp
  obtain ⟨m, hm⟩ := hc.2.2 hne
  obtain ⟨h1, h2, h3⟩ := hc.2.1 m hm
  rw [wComments_ages] at h1 h2
  have hm5 : m = 5 := by
    have h5 := h2 5 (by simp)
    rcases (by simpa using h1 : m = 5 ∨ m = 7) with h | h
    · exact h
    · subst h; linarith
  subst hm5
  refine ⟨hne, hm, ?_⟩
  rw [h3]
  have hmax : max (0 : ℚ) (SKIP_REQUEST_UPDATE_WITHIN_HOURS - 5) = 1 := by
    norm_num [SKIP_REQUEST_UPDATE_WITHIN_HOURS, max_def]
  rw [hmax]

/-- The single step an action of the vocabulary contributes (used to state
that the executor loop emits exactly one step per plan entry). -/
def stepForAction1 (now : ℚ) (issueKey : String) (f : Fields) (comments : List CommentV)
    (eff : Effects) (action : String) : Step :=
  if action = "Assign to me" then
    if f.assignee.isSome then
      { key := "assign", label := "Assign to me", status := .skipped, message := "Skipped — already assigned" }
    else
      runStepE "assign" "Assign to me" issueKey
        (eff.assignRes.map (fun _ => { skipped := false, message := "Assign to me complete for " ++ issueKey }))
  else if action = "Request update" then
    if hasRecentMarkedComment now comments MARK_REQUEST_UPDATE SKIP_REQUEST_UPDATE_WITHIN_HOURS then
      { key := "req", label := "Request update", status := .skipped, message := "Skipped — requested within 6h" }
    else
      runStepE "req" "Request update" issueKey
        (eff.requestRes.map (fun _ => { skipped := false, message := "Request update posted for " ++ issueKey }))
  else if action = "Post playbook note" then
    if hasRecentMarkedComment now comments MARK_PLAYBOOK_NOTE SKIP_PLAYBOOK_NOTE_WITHIN_HOURS then
      { key := "note", label := "Post playbook note", status := .skipped, message := "Skipped — posted within 12h" }
    else
      runStepE "note" "Post playbook note" issueKey
        (eff.noteRes.map (fun _ => { skipped := false, message := "Playbook note posted for " ++ issueKey }))
  else if action = "Generate customer update" then
    { key := "draft", label := "Generate customer update", status := .done, message := "Draft ready for " ++ issueKey }
  else
    runStepE "esc" "Escalate" issueKey
      (if f.labels.contains LABEL_ESCALATED then
        Except.ok { skipped := true, message := "Skipped — already escalated" }
       else
        eff.escalateRes.map (fun _ => { skipped := false, message := "Escalate complete for " ++ issueKey }))

theorem stepsForAction_vocab (now : ℚ) (issueKey : String) (f : Fields) (comments : List CommentV)
    (eff : Effects) (a : String) (ha : a ∈ ACTION_VOCAB) :
    stepsForAction now issueKey f comments eff a = [stepForAction1 now issueKey f comments eff a] := by
  simp only [ACTION_VOCAB, List.mem_cons, List.mem_singleton] at ha
  rcases ha with rfl | rfl | rfl | rfl | rfl | h
  · simp [stepsForAction, stepForAction1]
    split_ifs <;> rfl
  · simp [stepsForAction, stepForAction1]
    split_ifs <;> rfl
  · simp [stepsForAction, stepForAction1]
    split_ifs <;> rfl
  · simp [stepsForAction, stepForAction1]
  · simp [stepsForAction, stepForAction1]
  · exact absurd h (by simp)

theorem runSteps_eq_map (now : ℚ) (issueKey : String) (f : Fields) (comments : List CommentV)
    (eff : Effects) :
    ∀ (plan : List String), (∀ a ∈ plan, a ∈ ACTION_VOCAB) →
      runSteps now issueKey f comments eff plan = plan.map (stepForAction1 now issueKey f comments eff) := by
  intro plan
  induction plan with
  | nil => intro _; rfl
  | cons a rest ih =>
    intro hall
    rw [show runSteps now issueKey f comments eff (a :: rest) =
        stepsForAction now issueKey f comments eff a ++ runSteps now issueKey f comments eff rest from rfl]
    rw [stepsForAction_vocab now issueKey f comments eff a (hall a (List.mem_cons_self a rest)),
      ih (fun x hx => hall x (List.mem_cons_of_mem a hx)), List.map_cons]
    rfl

/-- C2: a single-issue run completes (`ok: true`), emits exactly one step
per recommended action in plan order (the step list is the plan mapped
through the per-action step function, so each step depends only on its own
action's outcome and later actions always execute), and an action whose
external write throws is recorded as a `failed` step carrying the error. -/
theorem runRecommended_isolation (now : ℚ) (issueKey : String) (f : Fields)
    (comments : List CommentV) (eff : Effects) (e : String)
    (hreq : eff.requestRes = Except.error e)
    (hskip : hasRecentMarkedComment now comments MARK_REQUEST_UPDATE
      SKIP_REQUEST_UPDATE_WITHIN_HOURS = false) :
    (runRecommended now issueKey f comments eff).ok = true ∧
    (runRecommended now issueKey f comments eff).steps =
      ((computeRiskAndReasons now f).recommended).map (stepForAction1 now issueKey f comments eff) ∧
    stepForAction1 now issueKey f comments eff "Request update" =
      { key := "req", label := "Request update", status := .failed, message := e } := by
  refine ⟨rfl, ?_, ?_⟩
  · show runSteps now issueKey f comments eff (computeRiskAndReasons now f).recommended = _
    exact runSteps_eq_map now issueKey f comments eff _
      (by rw [crr_recommended]; exact computeRecommended_mem_vocab _ _ _ _)
  · simp [stepForAction1, hskip, hreq, runStepE, Except.map]

/-- Write outcomes where the request-update post throws. -/
def wEffReqFail : Effects :=
  { assignRes := .ok (), requestRes := .error "boom", noteRes := .ok (), escalateRes := .ok () }

/-- Witness for `runRecommended_isolation` on a blocked, unassigned issue
with an empty comment history. -/
theorem runRecommended_isolation_witness :
    wEffReqFail.requestRes = Except.error "boom" ∧
    hasRecentMarkedComment 0 [] MARK_REQUEST_UPDATE SKIP_REQUEST_UPDATE_WITHIN_HOURS = false ∧
    ((runRecommended 0 "SUP-1" wfBlocked [] wEffReqFail).steps =
      ((computeRiskAndReasons 0 wfBlocked).recommended).map
        (stepForAction1 0 "SUP-1" wfBlocked [] wEffReqFail) ∧
     stepForAction1 0 "SUP-1" wfBlocked [] wEffReqFail "Request update" =
      { key := "req", label := "Request update", status := .failed, message := "boom" }) :=
  ⟨rfl, rfl, (runRecommended_isolation 0 "SUP-1" wfBlocked [] wEffReqFail "boom" rfl rfl).2⟩

/-- Did this issue's fetch pair succeed? -/
def fetchOk (t : BulkInput) : Bool :=
  match t.fetch with
  | .ok _ => true
  | .error _ => false

theorem processIssue_okInc (now : ℚ) (t : BulkInput) :
    (processIssue now t).2.1 = if fetchOk t then 1 else 0 := by
  cases h : t.fetch <;> simp [processIssue, fetchOk, h]

theorem processIssue_failInc (now : ℚ) (t : BulkInput) :
    (processIssue now t).2.2.1 = if fetchOk t then 0 else 1 := by
  cases h : t.fetch <;> simp [processIssue, fetchOk, h]

theorem bulkLoop_results (now : ℚ) :
    ∀ l : List BulkInput, (bulkLoop now l).1 = l.map (fun t => (processIssue now t).1) := by
  intro l
  induction l with
  | nil => rfl
  | cons t rest ih => simp [bulkLoop, ih]

theorem bulkLoop_okCount (now : ℚ) :
    ∀ l : List BulkInput, (bulkLoop now l).2.1 = l.countP fetchOk := by
  intro l
  induction l with
  | nil => rfl
  | cons t rest ih =>
    simp [bulkLoop, ih, List.countP_cons, processIssue_okInc]
    split_ifs <;> simp [Nat.add_comm]

theorem bulkLoop_failedCount (now : ℚ) :
    ∀ l : List BulkInput, (bulkLoop now l).2.2.1 = l.countP (fun t => !fetchOk t) := by
  intro l
  induction l with
  | nil => rfl
  | cons t rest ih =>
    simp [bulkLoop, ih, List.countP_cons, processIssue_failInc]
    split_ifs <;> simp_all [Nat.add_comm]

/-- C5: a bulk run's per-issue counters always satisfy
`okCount + failedCount = total`, every selected target contributes exactly
one result entry (the results list is the target list mapped through the
per-issue catch boundary), an issue whose fetch throws is recorded as a
failed entry carrying the error, and an issue whose fetch succeeds is
recorded as an ok entry with its full step list and draft. -/
theorem runBulk_isolation (now : ℚ) (scope : String) (inputs : List BulkInput) :
    (runBulkRecommended now scope inputs).okCount + (runBulkRecommended now scope inputs).failedCount =
      (runBulkRecommended now scope inputs).total ∧
    (runBulkRecommended now scope inputs).results.length =
      (runBulkRecommended now scope inputs).total ∧
    (runBulkRecommended now scope inputs).results =
      (bulkTargets now scope inputs).map (fun t => (processIssue now t).1) ∧
    (∀ t ∈ bulkTargets now scope inputs, ∀ e, t.fetch = Except.error e →
      ({ issueKey := t.key, ok := false, steps := [], draft := none, error := some e } : IssueResult) ∈
        (runBulkRecommended now scope inputs).results) ∧
    (∀ t ∈ bulkTargets now scope inputs, ∀ fl cm, t.fetch = Except.ok (fl, cm) →
      ({ issueKey := t.key, ok := true, steps := (bulkIssueSteps now t.key fl cm t.eff).1,
         draft := (bulkIssueSteps now t.key fl cm t.eff).2.1, error := none } : IssueResult) ∈
        (runBulkRecommended now scope inputs).results) := by
  have hok : (runBulkRecommended now scope inputs).okCount =
      (bulkTargets now scope inputs).countP fetchOk := bulkLoop_okCount now _
  have hfail : (runBulkRecommended now scope inputs).failedCount =
      (bulkTargets now scope inputs).countP (fun t => !fetchOk t) := bulkLoop_failedCount now _
  have hres : (runBulkRecommended now scope inputs).results =
      (bulkTargets now scope inputs).map (fun t => (processIssue now t).1) := bulkLoop_results now _
  have htot : (runBulkRecommended now scope inputs).total =
      (bulkTargets now scope inputs).length := rfl
  refine ⟨?_, ?_, hres, ?_, ?_⟩
  · rw [hok, hfail, htot]
    have h := (bulkTargets now scope inputs).length_eq_countP_add_countP fetchOk
    have hcong : List.countP (fun a => decide ¬fetchOk a = true) (bulkTargets now scope inputs) =
        List.countP (fun t => !fetchOk t) (bulkTargets now scope inputs) := by
      apply List.countP_congr
      intro a _
      cases fetchOk a <;> simp
    rw [← hcong]
    exact h.symm
  · rw [hres, htot, List.length_map]
  · intro t ht e he
    rw [hres]
    have hval : (processIssue now t).1 =
        { issueKey := t.key, ok := false, steps := [], draft := none, error := some e } := by
      simp [processIssue, he]
    exact hval ▸ List.mem_map_of_mem _ ht
  · intro t ht fl cm he
    rw [hres]
    have hval : (processIssue now t).1 =
        { issueKey := t.key, ok := true, steps := (bulkIssueSteps now t.key fl cm t.eff).1,
          draft := (bulkIssueSteps now t.key fl cm t.eff).2.1, error := none } := by
      simp [processIssue, he]
    exact hval ▸ List.mem_map_of_mem _ ht

/-- Write outcomes where every write succeeds. -/
def wEffOk : Effects :=
  { assignRes := .ok (), requestRes := .ok (), noteRes := .ok (), escalateRes := .ok () }

/-- Bulk batch for the isolation witness: A and C fetch fine, B's fetch
throws. -/
def wBulkA : BulkInput :=
  { key := "SUP-1", listFields := wfBlocked, fetch := .ok (wfBlocked, []), eff := wEffOk }

def wBulkB : BulkInput :=
  { key := "SUP-2", listFields := wfBlocked, fetch := .error "net down", eff := wEffOk }

def wBulkC : BulkInput :=
  { key := "SUP-3", listFields := wfBlocked, fetch := .ok (wfBlocked, []), eff := wEffOk }

def wBulkInputs : List BulkInput := [wBulkA, wBulkB, wBulkC]

/-- Witness for `runBulk_isolation`: in a three-issue batch whose middle
issue's fetch throws, the counters add up, B is recorded failed, and A
still completes with its full step list. -/
theorem runBulk_isolation_witness :
    wBulkB ∈ bulkTargets 0 "VISIBLE" wBulkInputs ∧
    wBulkB.fetch = Except.error "net down" ∧
    (runBulkRecommended 0 "VISIBLE" wBulkInputs).okCount +
        (runBulkRecommended 0 "VISIBLE" wBulkInputs).failedCount =
      (runBulkRecommended 0 "VISIBLE" wBulkInputs).total ∧
    ({ issueKey := "SUP-2", ok := false, steps := [], draft := none, error := some "net down" } :
        IssueResult) ∈ (runBulkRecommended 0 "VISIBLE" wBulkInputs).results ∧
    ({ issueKey := "SUP-1", ok := true, steps := (bulkIssueSteps 0 "SUP-1" wfBlocked [] wEffOk).1,
        draft := (bulkIssueSteps 0 "SUP-1" wfBlocked [] wEffOk).2.1, error := none } :
        IssueResult) ∈ (runBulkRecommended 0 "VISIBLE" wBulkInputs).results := by
  have hmemB : wBulkB ∈ bulkTargets 0 "VISIBLE" wBulkInputs := by
    rw [show bulkTargets 0 "VISIBLE" wBulkInputs = wBulkInputs from rfl]
    simp [wBulkInputs]
  have hmemA : wBulkA ∈ bulkTargets 0 "VISIBLE" wBulkInputs := by
    rw [show bulkTargets 0 "VISIBLE" wBulkInputs = wBulkInputs from rfl]
    simp [wBulkInputs]
  refine ⟨hmemB, rfl, (runBulk_isolation 0 "VISIBLE" wBulkInputs).1, ?_, ?_⟩
  · exact (runBulk_isolation 0 "VISIBLE" wBulkInputs).2.2.2.1 wBulkB hmemB "net down" rfl
  · exact (runBulk_isolation 0 "VISIBLE" wBulkInputs).2.2.2.2 wBulkA hmemA wfBlocked [] rfl

/-- A non-blocked, unassigned issue: its recommended plan is only
`Assign to me`. -/
def wfOpenUnassigned : Fields :=
  { statusName := some "Open", updated := none, summary := some "Small question"
    assignee := none, labels := [], sla := JsVal.null }

def wBulkD : BulkInput :=
  { key := "SUP-9", listFields := wfOpenUnassigned, fetch := .ok (wfOpenUnassigned, []), eff := wEffOk }

/-- C8 counterexample: a bulk run over a non-blocked, unassigned issue
(scope `VISIBLE`) completes the issue with `ok: true` but a `null` draft —
the bulk runner builds the draft only when the plan contains the
`Generate customer update` action, unlike the single-issue runner. -/
theorem bulk_ok_result_without_draft :
    (runBulkRecommended 0 "VISIBLE" [wBulkD]).results =
      [{ issueKey := "SUP-9", ok := true,
         steps := [{ key := "assign", label := "Assign to me", status := .done,
                     message := "Assign to me complete for SUP-9" }],
         draft := none, error := none }] ∧
    (runBulkRecommended 0 "VISIBLE" [wBulkD]).okCount = 1 := by
  decide

/-- C8 amended: the single-issue runner always returns the built customer
draft, while a bulk per-issue result carries a draft exactly when that
issue's recommended plan contains `Generate customer update`. -/
theorem draft_presence (now : ℚ) (issueKey : String) (f : Fields) (comments : List CommentV)
    (eff : Effects) :
    (runRecommended now issueKey f comments eff).draft =
      buildCustomerDraft issueKey
        (if f.summary.getD "" = "" then issueKey else f.summary.getD "")
        (computeRiskAndReasons now f).status ∧
    ((bulkIssueSteps now issueKey f comments eff).2.1).isSome =
      ((computeRiskAndReasons now f).recommended).contains "Generate customer update" := by
  constructor
  · rfl
  · by_cases h : "Generate customer update" ∈ (computeRiskAndReasons now f).recommended
    · rw [show (bulkIssueSteps now issueKey f comments eff).2.1 =
          some (buildCustomerDraft issueKey
            (if f.summary.getD "" = "" then issueKey else f.summary.getD "")
            (computeRiskAndReasons now f).status) by simp [bulkIssueSteps, h]]
      simp [h]
    · rw [show (bulkIssueSteps now issueKey f comments eff).2.1 = none by simp [bulkIssueSteps, h]]
      simp [h]

/-! ## C4: spec-side definitions for the SLA resolution order -/

/-- Breach-word test, shared by the spec-side resolution definitions. -/
def hasBreachWord (s : String) : Bool :=
  containsStr s "breach" || containsStr s "breached" || containsStr s "overdue"

/-- Day/hour/minute token resolution, shared by the spec-side resolution
definitions (same token matcher as the code's regexes). -/
def durationTokensHours (s : String) : Option ℚ :=
  let dM := findNumBefore 'd' s.data
  let hM := findNumBefore 'h' s.data
  let mM := findNumBefore 'm' s.data
  if dM.isNone && hM.isNone && mM.isNone then none
  else some ((dM.getD 0 : ℚ) * 24 + (hM.getD 0 : ℚ) + (mM.getD 0 : ℚ) / 60)

/-- A numeric JSON value, if that is what this is. -/
def jsNumOpt : JsVal → Option Int
  | .num n => some n
  | _ => none

/-- Modelled from the spec: the claim's step (b), "a millisecond-remaining
field is converted directly"; no such conversion exists in
`src/index.js` (it did in an earlier revision's
`fetchFirstResponseSlaRemainingHours`). -/
def slaMillisOf (entry : JsVal) : Option Int :=
  match jsNumOpt (jsGet (jsGet (jsGet entry "ongoingCycle") "remainingTime") "millis") with
  | some n => some n
  | none => jsNumOpt (jsGet (jsGet entry "remainingTime") "millis")

/-- Per-entry resolution in the order the claim states: (a) breached flag
⇒ 0; (b) millisecond field ⇒ direct conversion; (c) duration tokens;
(d) breach words ⇒ 0; else nothing. -/
def slaEntryValueClaimed (entry : JsVal) : Option ℚ :=
  if slaBreachedFlag entry then some 0
  else match slaMillisOf entry with
    | some n => some ((n : ℚ) / 3600000)
    | none =>
      let t := trimStr (lowerStr (jsToString (slaRemainingText entry)))
      match durationTokensHours t with
      | some q => some q
      | none => if hasBreachWord t then some 0 else none

def slaScanClaimed : List JsVal → Option ℚ
  | [] => none
  | entry :: rest =>
    if !slaNameMatches entry then slaScanClaimed rest
    else match slaEntryValueClaimed entry with
      | some q => some q
      | none => slaScanClaimed rest

/-- The extraction as the claim describes it. -/
def extractClaimedC4 (sla : JsVal) : Option ℚ :=
  if !jsTruthy sla then none
  else slaScanClaimed (slaCandidates sla)

/-- Per-entry resolution in the order the code actually uses: the
remaining-time text first (breach words before duration tokens), the
breached flag only when the text yields nothing; no millisecond branch. -/
def slaEntryValueAmended (entry : JsVal) : Option ℚ :=
  let txt := slaRemainingText entry
  let fromText : Option ℚ :=
    if jsTruthy txt then
      let s := trimStr (lowerStr (jsToString txt))
      if hasBreachWord s then some 0 else durationTokensHours s
    else none
  match fromText with
  | some q => some q
  | none => if slaBreachedFlag entry then some 0 else none

def slaScanAmended : List JsVal → Option ℚ
  | [] => none
  | entry :: rest =>
    if !slaNameMatches entry then slaScanAmended rest
    else match slaEntryValueAmended entry with
      | some q => some q
      | none => slaScanAmended rest

/-- The extraction as the amended claim describes it. -/
def extractAmendedC4 (sla : JsVal) : Option ℚ :=
  if !jsTruthy sla then none
  else slaScanAmended (slaCandidates sla)

theorem parse_eq_textResolution (v : JsVal) :
    parseSlaRemainingToHours v =
      (if jsTruthy v then
        (let s := trimStr (lowerStr (jsToString v))
         if hasBreachWord s then some 0 else durationTokensHours s)
       else none) := by
  by_cases h : jsTruthy v <;>
    simp [parseSlaRemainingToHours, hasBreachWord, durationTokensHours, h]

theorem slaEntryValueAmended_eq (e : JsVal) :
    slaEntryValueAmended e =
      (match parseSlaRemainingToHours (slaRemainingText e) with
       | some q => some q
       | none => if slaBreachedFlag e then some 0 else none) := by
  rw [parse_eq_textResolution (slaRemainingText e)]
  rfl

theorem slaScan_eq_amended : ∀ entries : List JsVal,
    slaScanEntries entries = slaScanAmended entries := by
  intro entries
  induction entries with
  | nil => rfl
  | cons e rest ih =>
    simp only [slaScanEntries, slaScanAmended, slaEntryValueAmended_eq]
    by_cases hn : (!slaNameMatches e) = true
    · simp [hn, ih]
    · simp only [hn, Bool.false_eq_true, if_false]
      cases parseSlaRemainingToHours (slaRemainingText e) with
      | some q => rfl
      | none =>
        by_cases hf : slaBreachedFlag e = true <;> simp [hf, ih]

/-- C4 amended: the extraction equals the amended per-entry resolution —
remaining-time text first (breach words, then duration tokens), breached
flag only as fallback, no millisecond conversion. -/
theorem extract_eq_amendedC4 (sla : JsVal) :
    extractFirstResponseSlaRemainingHours sla = extractAmendedC4 sla := by
  unfold extractFirstResponseSlaRemainingHours extractAmendedC4
  split_ifs
  · rfl
  · exact slaScan_eq_amended _

/-- The entry that separates the claimed order from the code: breached flag
set *and* a parseable remaining-time text. -/
def cxEntryC4 : JsVal :=
  .obj (JsKvs.ofL
    [("name", .str "Time to first response"), ("breached", .bool true),
     ("remainingTime", .str "3h")])

def cxSlaC4 : JsVal := .arr (JsList.ofL [cxEntryC4])

/-- C4 counterexample: on an entry with `breached: true` and
`remainingTime: "3h"`, the claimed order (breached flag first) yields 0
while the code (text first, flag last) yields 3. -/
theorem sla_resolution_order_counterexample :
    extractFirstResponseSlaRemainingHours cxSlaC4 = some 3 ∧
    extractClaimedC4 cxSlaC4 = some 0 ∧
    (3 : ℚ) ≠ 0 := by
  refine ⟨?_, by decide, by norm_num⟩
  have hp : parseSlaRemainingToHours (slaRemainingText cxEntryC4) = some 3 := by
    rw [show slaRemainingText cxEntryC4 = .str "3h" from rfl]
    have h1 : jsTruthy (.str "3h") = true := by decide
    have h2 : trimStr (lowerStr (jsToString (.str "3h"))) = "3h" := by decide
    have h3 : containsStr "3h" "breach" = false := by decide
    have h4 : containsStr "3h" "breached" = false := by decide
    have h5 : containsStr "3h" "overdue" = false := by decide
    have h6 : findNumBefore 'd' "3h".data = none := by decide
    have h7 : findNumBefore 'h' "3h".data = some 3 := by decide
    have h8 : findNumBefore 'm' "3h".data = none := by decide
    simp [parseSlaRemainingToHours, h1, h2, h3, h4, h5, h6, h7, h8]
  have hn : (!slaNameMatches cxEntryC4) = false := by decide
  show slaScanEntries [cxEntryC4] = some 3
  simp [slaScanEntries, hn, hp]
